import Mathlib

/-!
A shallow embedding of the group-chat server in `src/server.js`: the Session
Hub socket handlers (`join`, `sendMessage`, `getMessages`, `disconnect`), the
presence tables (`connectedUsers` map and the `online_users` SQL table), the
`messages` table, and the two history-query paths (the `getMessages` socket
event and the `GET /api/messages` route).

Modelling conventions:
* SQLite TEXT values are Lean `String`s; the SQLite `memcmp`-style text
  comparison is `strLeB` (code-point lexicographic order, which for UTF-8
  agrees with byte order).
* `ORDER BY timestamp ASC` over the `messages` table is modelled as a stable
  insertion sort (`sortLe`) of the rows in storage (rowid = id) order,
  matching the SQLite full scan in rowid order followed by its merge sorter.
* The AUTOINCREMENT id counter is `nextMessageId`; `DATETIME` defaults for
  `online_users.joined_at` are modelled by a logical clock on the state.
* Store availability is a `dbOk : Bool` parameter on the operations that hit
  the database, modelling success/failure of the underlying write.
* A JavaScript exception escaping a handler (there is no try/catch in the
  source) is modelled by `Except JsError`.
-/

namespace GroupChat

/-- A user identity as carried in socket payloads: `{studentId, name}`. -/
structure User where
  studentId : String
  name : String
deriving DecidableEq

/-- A row of the `messages` table:
`(id, student_id, user_name, content, timestamp)`. -/
structure MessageRow where
  id : Nat
  student_id : String
  user_name : String
  content : String
  timestamp : String
deriving DecidableEq

/-- A row of the `online_users` table:
`(student_id PRIMARY KEY, user_name, socket_id, joined_at)`.
`joined_at` is the logical clock value at insert time. -/
structure OnlineRow where
  student_id : String
  user_name : String
  socket_id : String
  joined_at : Nat
deriving DecidableEq

/-- A formatted message as returned to clients (`formattedMessages` /
`newMessage` payload): `{id, content, timestamp, user: {studentId, name}}`. -/
structure MessageOut where
  id : Nat
  content : String
  timestamp : String
  user : User
deriving DecidableEq

/-- An entry of the `userListUpdate` payload: `{studentId, name, online: true}`. -/
structure UserEntry where
  studentId : String
  name : String
  online : Bool
deriving DecidableEq

/-- Server state: the in-memory `connectedUsers` map (keyed by socket id),
the three SQL tables that the handlers touch, the AUTOINCREMENT counter of
`messages`, and a logical clock used for `joined_at` defaults. -/
structure ServerState where
  connectedUsers : List (String × User)
  online_users : List OnlineRow
  messages : List MessageRow
  nextMessageId : Nat
  clock : Nat
deriving DecidableEq

/-- The state at process start: empty map, empty tables, AUTOINCREMENT at 1. -/
def initState : ServerState :=
  { connectedUsers := [], online_users := [], messages := [], nextMessageId := 1, clock := 0 }

/-! ### JavaScript `Map` operations (`connectedUsers`) -/

/-- JS Map set on an association list keyed by socket id. -/
def mapSet (k : String) (v : User) : List (String × User) → List (String × User)
  | [] => [(k, v)]
  | (k2, v2) :: t => if k2 = k then (k, v) :: t else (k2, v2) :: mapSet k v t

/-- JS Map get. -/
def mapGet (k : String) : List (String × User) → Option User
  | [] => none
  | (k2, v2) :: t => if k2 = k then some v2 else mapGet k t

/-- JS Map delete. -/
def mapDelete (k : String) : List (String × User) → List (String × User)
  | [] => []
  | (k2, v2) :: t => if k2 = k then t else (k2, v2) :: mapDelete k t

/-! ### SQLite text comparison and `ORDER BY` -/

/-- Lexicographic `≤` on code-point lists: the SQLite memcmp text comparison
(UTF-8 byte order coincides with code-point order). -/
def listLe : List Char → List Char → Bool
  | [], _ => true
  | _ :: _, [] => false
  | a :: as, b :: bs =>
    if a.toNat < b.toNat then true
    else if b.toNat < a.toNat then false
    else listLe as bs

/-- SQLite text `≤` on strings. -/
def strLeB (a b : String) : Bool := listLe a.data b.data

/-- Insert into a sorted list, before the first element not `≤`-below the new
one; the building block of a stable insertion sort. -/
def insertLe {α : Type} (le : α → α → Bool) (a : α) : List α → List α
  | [] => [a]
  | b :: l => if le a b then a :: b :: l else b :: insertLe le a l

/-- Stable insertion sort: models SQLite `ORDER BY` over rows scanned in
storage order (ties keep storage order). -/
def sortLe {α : Type} (le : α → α → Bool) : List α → List α
  | [] => []
  | a :: l => insertLe le a (sortLe le l)

/-- Comparison of message rows for ORDER BY timestamp ASC. -/
def rowTsLe (a b : MessageRow) : Bool := strLeB a.timestamp b.timestamp

/-- Comparison of online rows for ORDER BY joined_at ASC. -/
def joinedLe (a b : OnlineRow) : Bool := a.joined_at ≤ b.joined_at

/-! ### Calendar arithmetic for the datetime-now-minus-N-days boundary -/

/-- A UTC instant with millisecond precision, as produced by
`new Date().toISOString()`. -/
structure DateTime where
  year : Nat
  month : Nat
  day : Nat
  hour : Nat
  minute : Nat
  second : Nat
  ms : Nat
deriving DecidableEq

/-- Days from the civil epoch 1970-01-01 (standard civil-calendar formula). -/
def daysFromCivil (y m d : Int) : Int :=
  let y2 := if m ≤ 2 then y - 1 else y
  let era := y2.ediv 400
  let yoe := y2 - era * 400
  let doy := (153 * (if m > 2 then m - 3 else m + 9) + 2).ediv 5 + d - 1
  let doe := yoe * 365 + yoe.ediv 4 - yoe.ediv 100 + doy
  era * 146097 + doe - 719468

/-- Civil date from days since 1970-01-01 (inverse of `daysFromCivil`). -/
def civilFromDays (z0 : Int) : Int × Int × Int :=
  let z := z0 + 719468
  let era := z.ediv 146097
  let doe := z - era * 146097
  let yoe := (doe - doe.ediv 1460 + doe.ediv 36524 - doe.ediv 146096).ediv 365
  let y := yoe + era * 400
  let doy := doe - (365 * yoe + yoe.ediv 4 - yoe.ediv 100)
  let mp := (5 * doy + 2).ediv 153
  let d := doy - (153 * mp + 2).ediv 5 + 1
  let m := if mp < 10 then mp + 3 else mp - 9
  (if m ≤ 2 then y + 1 else y, m, d)

/-- Seconds since the epoch of a `DateTime` (milliseconds dropped, matching
the second-resolution SQLite `datetime()`). -/
def dtToSecs (dt : DateTime) : Int :=
  daysFromCivil dt.year dt.month dt.day * 86400 +
    (dt.hour : Int) * 3600 + (dt.minute : Int) * 60 + dt.second

/-- Inverse of `dtToSecs`: the `DateTime` of a count of seconds since the
epoch (ms = 0). -/
def dtFromSecs (s : Int) : DateTime :=
  let days := s.ediv 86400
  let rem := (s.emod 86400).toNat
  let c := civilFromDays days
  { year := c.1.toNat, month := c.2.1.toNat, day := c.2.2.toNat,
    hour := rem / 3600, minute := rem % 3600 / 60, second := rem % 60, ms := 0 }

/-- Left-pad a numeral with zeros to the given width. -/
def padNum (width n : Nat) : String :=
  let s := toString n
  String.mk (List.replicate (width - s.length) '0') ++ s

/-- JS Date toISOString: YYYY-MM-DDTHH:MM:SS.sssZ. -/
def toIsoString (dt : DateTime) : String :=
  padNum 4 dt.year ++ "-" ++ padNum 2 dt.month ++ "-" ++ padNum 2 dt.day ++ "T" ++
    padNum 2 dt.hour ++ ":" ++ padNum 2 dt.minute ++ ":" ++ padNum 2 dt.second ++
    "." ++ padNum 3 dt.ms ++ "Z"

/-- SQLite `datetime()` output format: `YYYY-MM-DD HH:MM:SS`. -/
def sqliteDatetimeString (dt : DateTime) : String :=
  padNum 4 dt.year ++ "-" ++ padNum 2 dt.month ++ "-" ++ padNum 2 dt.day ++ " " ++
    padNum 2 dt.hour ++ ":" ++ padNum 2 dt.minute ++ ":" ++ padNum 2 dt.second

/-- Evaluation of datetime(now, -d days) at instant `now`. A negative `d`
produces the modifier --d days, which SQLite rejects, yielding NULL:
modelled as `none`. -/
def sqliteNowMinusDays (now : DateTime) (d : Int) : Option String :=
  if d < 0 then none
  else some (sqliteDatetimeString (dtFromSecs (dtToSecs now - d * 86400)))

/-- SQLite `date(timestamp)` applied to a stored timestamp string: for an
ISO-8601-shaped value it returns the `YYYY-MM-DD` prefix, otherwise NULL
(`none`). The shape check covers the strings this program ever stores. -/
def sqliteDateOf (s : String) : Option String :=
  match s.data with
  | y1 :: y2 :: y3 :: y4 :: '-' :: m1 :: m2 :: '-' :: d1 :: d2 :: _ =>
    if y1.isDigit && y2.isDigit && y3.isDigit && y4.isDigit &&
        m1.isDigit && m2.isDigit && d1.isDigit && d2.isDigit then
      some (String.mk [y1, y2, y3, y4, '-', m1, m2, '-', d1, d2])
    else none
  | _ => none

/-! ### Outbound events and emission primitives -/

/-- Outbound events the Hub sends (§6 of the spec / `socket.emit` payloads). -/
inductive OutEvent where
  | userJoined (user : User)
  | systemMessage (type message : String)
  | userLeft (user : User)
  | userListUpdate (users : List UserEntry)
  | newMessage (message : MessageOut)
  | messageHistory (messages : List MessageOut)
  | errorEvent (message : String)
deriving DecidableEq

/-- An emission: `socket.emit` (to one socket), `socket.broadcast.emit`
(to everyone except one socket), or `io.emit` (to everyone). -/
inductive Emit where
  | toSocket (sid : String) (e : OutEvent)
  | broadcastExcept (sid : String) (e : OutEvent)
  | toAll (e : OutEvent)
deriving DecidableEq

/-- What a given connection receives from one emission. -/
def deliveredTo (sid : String) : Emit → Option OutEvent
  | .toSocket t e => if t = sid then some e else none
  | .broadcastExcept t e => if t = sid then none else some e
  | .toAll e => some e

/-- The sequence of events a given connection observes from a list of
emissions. -/
def observes (sid : String) (es : List Emit) : List OutEvent :=
  es.filterMap (deliveredTo sid)

/-- A JavaScript exception escaping a handler (the handlers have no
try/catch, so it reaches the event loop uncaught). -/
inductive JsError where
  | typeError
deriving DecidableEq

/-! ### Session Hub handlers -/

/-- The current presence rows as `SELECT * FROM online_users ORDER BY
joined_at ASC` returns them. -/
def onlineList (st : ServerState) : List OnlineRow :=
  sortLe joinedLe st.online_users

/-- The `userListUpdate` payload built by `updateUserList`. -/
def userEntries (st : ServerState) : List UserEntry :=
  (onlineList st).map (fun r => { studentId := r.student_id, name := r.user_name, online := true })

/-- Handler of the join event: store the user in `connectedUsers`, `INSERT OR
REPLACE` the `online_users` row keyed by `student_id`, broadcast `userJoined`
to the others, send the welcome notice to the joiner, and emit the refreshed
`userListUpdate` to everyone (the `db.all` callback fires after the
synchronous emits). -/
def handleJoin (st : ServerState) (sid : String) (u : User) : ServerState × List Emit :=
  let st2 : ServerState :=
    { st with
      connectedUsers := mapSet sid u st.connectedUsers,
      online_users :=
        st.online_users.filter (fun r => !(r.student_id == u.studentId)) ++
          [{ student_id := u.studentId, user_name := u.name, socket_id := sid,
             joined_at := st.clock }],
      clock := st.clock + 1 }
  (st2,
    [Emit.broadcastExcept sid (OutEvent.userJoined u),
     Emit.toSocket sid (OutEvent.systemMessage "welcome" "欢迎来到群聊！"),
     Emit.toAll (OutEvent.userListUpdate (userEntries st2))])

/-- The payload of a `sendMessage` event; either field may be absent. -/
structure SendPayload where
  content : Option String
  user : Option User
deriving DecidableEq

/-- Handler of the sendMessage event: read `content`/`user` from the payload with no
validation (`user.studentId` throws a TypeError when `user` is absent), take
the send-time timestamp, `INSERT` into `messages`, and on callback success
`io.emit` the `newMessage` carrying the assigned id; on insert failure
(store unavailable, or the `content TEXT NOT NULL` constraint when `content`
is absent) emit `error` to the sender only. -/
def handleSendMessage (st : ServerState) (sid : String) (p : SendPayload)
    (ts : String) (dbOk : Bool) : Except JsError (ServerState × List Emit) :=
  match p.user with
  | none => Except.error JsError.typeError
  | some u =>
    if dbOk then
      match p.content with
      | none => Except.ok (st, [Emit.toSocket sid (OutEvent.errorEvent "消息发送失败")])
      | some c =>
        let row : MessageRow :=
          { id := st.nextMessageId, student_id := u.studentId, user_name := u.name,
            content := c, timestamp := ts }
        Except.ok
          ({ st with messages := st.messages ++ [row],
                     nextMessageId := st.nextMessageId + 1, clock := st.clock + 1 },
           [Emit.toAll (OutEvent.newMessage
             { id := st.nextMessageId, content := c, timestamp := ts, user := u })])
    else Except.ok (st, [Emit.toSocket sid (OutEvent.errorEvent "消息发送失败")])

/-- Handler of the disconnect event: if `connectedUsers` has no entry for the
socket, do nothing at all; otherwise `DELETE FROM online_users WHERE
socket_id = ?`, drop the map entry, broadcast `userLeft` to the others and
the refreshed `userListUpdate` to everyone. -/
def handleDisconnect (st : ServerState) (sid : String) : ServerState × List Emit :=
  match mapGet sid st.connectedUsers with
  | none => (st, [])
  | some u =>
    let st2 : ServerState :=
      { st with
        online_users := st.online_users.filter (fun r => !(r.socket_id == sid)),
        connectedUsers := mapDelete sid st.connectedUsers,
        clock := st.clock + 1 }
    (st2,
      [Emit.broadcastExcept sid (OutEvent.userLeft { studentId := u.studentId, name := u.name }),
       Emit.toAll (OutEvent.userListUpdate (userEntries st2))])

/-! ### History queries

Two paths build the same kind of query: the `getMessages` socket event
(`dateRange.days` is a number) and `GET /api/messages` (`req.query.days` is a
string run through `parseInt`). For each path we embed both the *text* of the
SQL statement with its bound-parameter list (for the interpolation claim) and
its *semantics* over the `messages` table (filter, stable sort by timestamp,
`LIMIT 1000`, then the `formattedMessages` projection). -/

/-- The `getMessages` payload `{days?, startDate?, endDate?}`. -/
structure DateRange where
  days : Option Int
  startDate : Option String
  endDate : Option String
deriving DecidableEq

/-- The `GET /api/messages` query string `{days?, startDate?, endDate?}`
(all values arrive as strings). -/
structure HttpQuery where
  days : Option String
  startDate : Option String
  endDate : Option String
deriving DecidableEq

/-- JavaScript truthiness of an optional string (`undefined` and `""` are
falsy). -/
def optTruthy : Option String → Bool
  | none => false
  | some s => !(s == "")

/-- The string under a truthy optional (total helper; only consulted when
`optTruthy` holds). -/
def optStr (o : Option String) : String := o.getD ""

/-- JavaScript truthiness of an optional number (`undefined` and `0` are
falsy; the payload is modelled as an integer). -/
def intTruthy : Option Int → Bool
  | none => false
  | some d => !(d == 0)

/-- The leading decimal digits of a character list as a number; `none` when
there is no leading digit. -/
def jsDigits (cs : List Char) : Option Nat :=
  let ds := cs.takeWhile Char.isDigit
  if ds.isEmpty then none
  else some (ds.foldl (fun a c => a * 10 + (c.toNat - 48)) 0)

/-- JS parseInt: skip leading whitespace, optional sign, leading digits;
`none` models NaN. -/
def jsParseInt (s : String) : Option Int :=
  let cs := s.data.dropWhile (fun c => c == ' ' || c == '\t' || c == '\n' || c == '\r')
  match cs with
  | '-' :: rest => (jsDigits rest).map (fun n => -(n : Int))
  | '+' :: rest => (jsDigits rest).map (fun n => (n : Int))
  | _ => (jsDigits cs).map (fun n => (n : Int))

/-- Rendering of a JS number into a template literal: `NaN` or its decimal
digits. -/
def jsNumberToString : Option Int → String
  | none => "NaN"
  | some i => toString i

/-! #### Query text and bound parameters -/

/-- The `WHERE` clause chosen by both routes once the `days` branch is ruled
out: `date(timestamp) BETWEEN ? AND ?` when both dates are truthy,
`date(timestamp) >= ?` when only `startDate` is, else no clause. Returns the
appended text and the bound parameters. -/
def dateRangeClause (sd ed : Option String) : String × List String :=
  if optTruthy sd then
    if optTruthy ed then
      (" WHERE date(timestamp) BETWEEN ? AND ?", [optStr sd, optStr ed])
    else
      (" WHERE date(timestamp) >= ?", [optStr sd])
  else ("", [])

/-- The SQL text and bound parameters built by the getMessages socket
handler. When `days` is truthy its value is spliced into the WHERE template
literal directly. -/
def getMessagesQuery (dr : DateRange) : String × List String :=
  let clause : String × List String :=
    match dr.days with
    | some d =>
      if !(d == 0) then
        (" WHERE timestamp >= datetime(\x27now\x27, \x27-" ++ toString d ++ " days\x27)", [])
      else dateRangeClause dr.startDate dr.endDate
    | none => dateRangeClause dr.startDate dr.endDate
  ("SELECT * FROM messages" ++ clause.1 ++ " ORDER BY timestamp ASC LIMIT 1000", clause.2)

/-- The SQL text and bound parameters built by `GET /api/messages`. The
days guard also excludes the string "0", and the spliced value is
the parseInt of the input. -/
def apiMessagesQuery (q : HttpQuery) : String × List String :=
  let clause : String × List String :=
    match q.days with
    | some d =>
      if !(d == "") && !(d == "0") then
        (" WHERE timestamp >= datetime(\x27now\x27, \x27-" ++
          jsNumberToString (jsParseInt d) ++ " days\x27)", [])
      else dateRangeClause q.startDate q.endDate
    | none => dateRangeClause q.startDate q.endDate
  ("SELECT * FROM messages" ++ clause.1 ++ " ORDER BY timestamp ASC LIMIT 1000", clause.2)

/-! #### Query semantics -/

/-- Row predicate of the days-filtered WHERE clause:
SQLite compares the stored timestamp text against the computed boundary text;
a NULL boundary (invalid modifier) selects nothing. -/
def daysCond (now : DateTime) (d : Int) (r : MessageRow) : Bool :=
  match sqliteNowMinusDays now d with
  | none => false
  | some b => strLeB b r.timestamp

/-- Row predicate of `WHERE date(timestamp) BETWEEN ? AND ?` (NULL date
selects nothing). -/
def betweenCond (sd ed : String) (r : MessageRow) : Bool :=
  match sqliteDateOf r.timestamp with
  | none => false
  | some dstr => strLeB sd dstr && strLeB dstr ed

/-- Row predicate of `WHERE date(timestamp) >= ?`. -/
def dateGeCond (sd : String) (r : MessageRow) : Bool :=
  match sqliteDateOf r.timestamp with
  | none => false
  | some dstr => strLeB sd dstr

/-- Row predicate of the date-only branches shared by both routes. -/
def dateRangeCond (sd ed : Option String) (r : MessageRow) : Bool :=
  if optTruthy sd then
    if optTruthy ed then betweenCond (optStr sd) (optStr ed) r
    else dateGeCond (optStr sd) r
  else true

/-- The row filter of the `getMessages` socket event
(`dateRange.days && dateRange.days !== 0` guards the days branch). -/
def getMessagesFilter (dr : DateRange) (now : DateTime) (r : MessageRow) : Bool :=
  match dr.days with
  | some d => if !(d == 0) then daysCond now d r else dateRangeCond dr.startDate dr.endDate r
  | none => dateRangeCond dr.startDate dr.endDate r

/-- The row filter of `GET /api/messages`
(a days value that is neither empty nor the string "0" selects the days
branch, via parseInt). -/
def apiMessagesFilter (q : HttpQuery) (now : DateTime) (r : MessageRow) : Bool :=
  match q.days with
  | some d =>
    if !(d == "") && !(d == "0") then
      match jsParseInt d with
      | none => false
      | some n => daysCond now n r
    else dateRangeCond q.startDate q.endDate r
  | none => dateRangeCond q.startDate q.endDate r

/-- The `formattedMessages` projection applied to each returned row. -/
def formatRow (r : MessageRow) : MessageOut :=
  { id := r.id, content := r.content, timestamp := r.timestamp,
    user := { studentId := r.student_id, name := r.user_name } }

/-- Result rows of the `getMessages` socket event: `WHERE` filter, `ORDER BY
timestamp ASC`, `LIMIT 1000`, then formatting. -/
def getMessagesResult (dr : DateRange) (now : DateTime) (st : ServerState) : List MessageOut :=
  ((sortLe rowTsLe (st.messages.filter (getMessagesFilter dr now))).take 1000).map formatRow

/-- Result rows of `GET /api/messages`: same pipeline with the HTTP filter. -/
def apiMessagesResult (q : HttpQuery) (now : DateTime) (st : ServerState) : List MessageOut :=
  ((sortLe rowTsLe (st.messages.filter (apiMessagesFilter q now))).take 1000).map formatRow

/-- Handler of the getMessages event: reply to the requesting socket only with the
query result, or an `error` event when the read fails. -/
def handleGetMessages (st : ServerState) (sid : String) (dr : DateRange)
    (now : DateTime) (dbOk : Bool) : List Emit :=
  if dbOk then [Emit.toSocket sid (OutEvent.messageHistory (getMessagesResult dr now st))]
  else [Emit.toSocket sid (OutEvent.errorEvent "获取消息历史失败")]

/-! ### Presence event traces (for the join/leave counting claims) -/

/-- A presence-affecting inbound event: `join` or the adapter-level
`disconnect`. -/
inductive Event where
  | join (sid : String) (u : User)
  | disconnect (sid : String)
deriving DecidableEq

/-- State transition of one inbound event (the emissions are dropped). -/
def stepEvent (st : ServerState) : Event → ServerState
  | .join sid u => (handleJoin st sid u).1
  | .disconnect sid => (handleDisconnect st sid).1

/-- Run a sequence of inbound events. -/
def runEvents : ServerState → List Event → ServerState
  | st, [] => st
  | st, e :: t => runEvents (stepEvent st e) t

/-- Number of join events in a trace. -/
def countJoins (t : List Event) : Nat :=
  t.countP (fun e => match e with | .join _ _ => true | .disconnect _ => false)

/-- Number of disconnect events in a trace. -/
def countLeaves (t : List Event) : Nat :=
  t.countP (fun e => match e with | .join _ _ => false | .disconnect _ => true)

/-- The well-formedness of a presence trace under which the `N − M` count law
can hold: every join uses a connection handle never used before and a user id
not currently present, and every disconnect is issued by a currently present
connection. -/
def okTrace : ServerState → List String → List Event → Bool
  | _, _, [] => true
  | st, used, .join sid u :: rest =>
    !(used.contains sid) &&
      st.online_users.all (fun r => !(r.student_id == u.studentId)) &&
      okTrace (stepEvent st (.join sid u)) (sid :: used) rest
  | st, used, .disconnect sid :: rest =>
    st.online_users.any (fun r => r.socket_id == sid) &&
      okTrace (stepEvent st (.disconnect sid)) used rest

/-! ### Order lemmas for the SQLite text comparison -/

theorem listLe_refl : ∀ l : List Char, listLe l l = true := by
  intro l
  induction l with
  | nil => rfl
  | cons a t ih => simp [listLe, ih]

theorem listLe_total : ∀ l1 l2 : List Char, listLe l1 l2 = false → listLe l2 l1 = true := by
  intro l1
  induction l1 with
  | nil => intro l2 h; simp [listLe] at h
  | cons a t ih =>
    intro l2 h
    cases l2 with
    | nil => simp [listLe]
    | cons b s =>
      simp only [listLe] at h ⊢
      by_cases hab : a.toNat < b.toNat
      · simp [hab] at h
      · by_cases hba : b.toNat < a.toNat
        · simp [hba]
        · simp [hab, hba] at h ⊢
          exact ih s h

theorem listLe_trans : ∀ l1 l2 l3 : List Char,
    listLe l1 l2 = true → listLe l2 l3 = true → listLe l1 l3 = true := by
  intro l1
  induction l1 with
  | nil => intro l2 l3 _ _; rfl
  | cons a t ih =>
    intro l2 l3 h12 h23
    cases l2 with
    | nil => simp [listLe] at h12
    | cons b s =>
      cases l3 with
      | nil => simp [listLe] at h23
      | cons c r =>
        simp only [listLe] at h12 h23 ⊢
        by_cases hab : a.toNat < b.toNat
        · by_cases hbc : b.toNat < c.toNat
          · have : a.toNat < c.toNat := Nat.lt_trans hab hbc
            simp [this]
          · by_cases hcb : c.toNat < b.toNat
            · simp [hbc, hcb] at h23
            · have hbc2 : b.toNat = c.toNat := by omega
              have : a.toNat < c.toNat := hbc2 ▸ hab
              simp [this]
        · by_cases hba : b.toNat < a.toNat
          · simp [hab, hba] at h12
          · have hab2 : a.toNat = b.toNat := by omega
            simp only [hab, hba, if_neg, ite_false] at h12
            by_cases hbc : b.toNat < c.toNat
            · have : a.toNat < c.toNat := hab2 ▸ hbc
              simp [this]
            · by_cases hcb : c.toNat < b.toNat
              · simp [hbc, hcb] at h23
              · have hac : ¬ a.toNat < c.toNat := by omega
                have hca : ¬ c.toNat < a.toNat := by omega
                simp only [hbc, hcb, if_neg, ite_false] at h23
                simp only [hac, hca, if_neg, ite_false]
                exact ih s r h12 h23

theorem strLeB_refl (s : String) : strLeB s s = true := listLe_refl s.data

theorem strLeB_total {a b : String} (h : strLeB a b = false) : strLeB b a = true :=
  listLe_total a.data b.data h

theorem strLeB_trans {a b c : String} (h1 : strLeB a b = true) (h2 : strLeB b c = true) :
    strLeB a c = true :=
  listLe_trans a.data b.data c.data h1 h2

/-! ### Permutation lemmas for the stable sort -/

theorem insertLe_perm {α : Type} (le : α → α → Bool) (a : α) :
    ∀ l : List α, List.Perm (insertLe le a l) (a :: l) := by
  intro l
  induction l with
  | nil => exact List.Perm.refl _
  | cons b t ih =>
    simp only [insertLe]
    by_cases h : le a b = true
    · simp [h]
    · simp only [h, if_neg, ite_false, Bool.not_eq_true]
      exact (ih.cons b).trans (List.Perm.swap a b t)

theorem sortLe_perm {α : Type} (le : α → α → Bool) :
    ∀ l : List α, List.Perm (sortLe le l) l := by
  intro l
  induction l with
  | nil => exact List.Perm.refl _
  | cons a t ih =>
    simp only [sortLe]
    exact (insertLe_perm le a (sortLe le t)).trans (ih.cons a)

theorem mem_insertLe {α : Type} {le : α → α → Bool} {a x : α} {l : List α} :
    x ∈ insertLe le a l ↔ x = a ∨ x ∈ l := by
  rw [(insertLe_perm le a l).mem_iff]
  simp

theorem length_sortLe {α : Type} (le : α → α → Bool) (l : List α) :
    (sortLe le l).length = l.length :=
  (sortLe_perm le l).length_eq

/-! ### Sortedness of the query result: ascending timestamp, ties by id -/

/-- "Ascending by timestamp, ties broken by ascending id" between two message
rows, with the timestamps compared as SQLite compares the stored text. -/
def rowLex (a b : MessageRow) : Prop :=
  strLeB a.timestamp b.timestamp = true ∧ (a.timestamp = b.timestamp → a.id < b.id)

/-- The same relation on formatted messages. -/
def outLex (a b : MessageOut) : Prop :=
  strLeB a.timestamp b.timestamp = true ∧ (a.timestamp = b.timestamp → a.id < b.id)

theorem pairwise_insertLe {a : MessageRow} :
    ∀ {l : List MessageRow}, l.Pairwise rowLex → (∀ b ∈ l, a.id < b.id) →
      (insertLe rowTsLe a l).Pairwise rowLex := by
  intro l
  induction l with
  | nil =>
    intro _ _
    simp [insertLe, List.pairwise_cons]
  | cons b t ih =>
    intro hl ha
    have hab : a.id < b.id := ha b (List.mem_cons_self b t)
    rw [List.pairwise_cons] at hl
    obtain ⟨hbt, ht⟩ := hl
    simp only [insertLe, rowTsLe]
    by_cases h : strLeB a.timestamp b.timestamp = true
    · rw [if_pos h, List.pairwise_cons]
      constructor
      · intro c hc
        rw [List.mem_cons] at hc
        rcases hc with rfl | hc
        · exact ⟨h, fun _ => hab⟩
        · obtain ⟨hbc1, _⟩ := hbt c hc
          exact ⟨strLeB_trans h hbc1, fun _ => ha c (List.mem_cons_of_mem b hc)⟩
      · rw [List.pairwise_cons]
        exact ⟨hbt, ht⟩
    · have hba : strLeB b.timestamp a.timestamp = true :=
        strLeB_total (Bool.eq_false_iff.mpr h)
      rw [if_neg h, List.pairwise_cons]
      constructor
      · intro c hc
        rw [mem_insertLe] at hc
        rcases hc with hc | hc
        · subst hc
          refine ⟨hba, fun heq => ?_⟩
          rw [heq] at h
          exact absurd (strLeB_refl _) h
        · exact hbt c hc
      · exact ih ht (fun c hc => ha c (List.mem_cons_of_mem b hc))

theorem pairwise_sortLe :
    ∀ {l : List MessageRow}, l.Pairwise (fun a b => a.id < b.id) →
      (sortLe rowTsLe l).Pairwise rowLex := by
  intro l
  induction l with
  | nil =>
    intro _
    simp [sortLe]
  | cons a t ih =>
    intro h
    rw [List.pairwise_cons] at h
    obtain ⟨hat, ht⟩ := h
    simp only [sortLe]
    refine pairwise_insertLe (ih ht) ?_
    intro b hb
    exact hat b ((sortLe_perm rowTsLe t).mem_iff.mp hb)

/-! ### Map lemmas (`connectedUsers`) -/

theorem mapGet_set_self (k : String) (v : User) :
    ∀ m : List (String × User), mapGet k (mapSet k v m) = some v := by
  intro m
  induction m with
  | nil => simp [mapSet, mapGet]
  | cons p t ih =>
    obtain ⟨k2, v2⟩ := p
    simp only [mapSet]
    by_cases h : k2 = k
    · simp [h, mapGet]
    · simp [h, mapGet, ih]

theorem mapGet_set_ne {k k2 : String} (hne : k2 ≠ k) (v : User) :
    ∀ m : List (String × User), mapGet k2 (mapSet k v m) = mapGet k2 m := by
  intro m
  induction m with
  | nil =>
    simp only [mapSet, mapGet]
    exact if_neg fun h => hne h.symm
  | cons p t ih =>
    obtain ⟨k3, v3⟩ := p
    simp only [mapSet]
    by_cases h : k3 = k
    · subst h
      have : ¬ k3 = k2 := fun h2 => hne h2.symm
      simp [mapGet, this]
    · simp only [h, if_neg, ite_false]
      simp only [mapGet]
      by_cases h2 : k3 = k2
      · simp [h2]
      · simp [h2, ih]

theorem mapGet_delete_of_none {k k2 : String} :
    ∀ m : List (String × User), mapGet k m = none → mapGet k (mapDelete k2 m) = none := by
  intro m
  induction m with
  | nil => intro _; simp [mapDelete, mapGet]
  | cons p t ih =>
    obtain ⟨k3, v3⟩ := p
    intro h
    simp only [mapGet] at h
    by_cases h3 : k3 = k
    · simp [h3] at h
    · simp only [h3, if_neg, ite_false] at h
      simp only [mapDelete]
      by_cases h4 : k3 = k2
      · simp [h4, h]
      · simp [h4, mapGet, h3, ih h]

theorem mapGet_delete_ne {k k2 : String} (hne : k ≠ k2) :
    ∀ m : List (String × User), mapGet k (mapDelete k2 m) = mapGet k m := by
  intro m
  induction m with
  | nil => simp [mapDelete]
  | cons p t ih =>
    obtain ⟨k3, v3⟩ := p
    simp only [mapDelete]
    by_cases h : k3 = k2
    · subst h
      have : ¬ k3 = k := fun h2 => hne (h2.symm)
      simp [mapGet, this]
    · simp only [h, if_neg, ite_false]
      simp only [mapGet]
      by_cases h2 : k3 = k
      · simp [h2]
      · simp [h2, ih]

/-! ### Claim theorems -/

/-- C1: for a `sendMessage` with both fields present, a successful store
append emits exactly one `newMessage` — carrying the store-assigned id, the
send-time timestamp, the content and the sender identity — which every
connection (the sender included) observes; a failed append emits only an
`error` to the sender, the store is unchanged, and no other connection
observes anything. -/
theorem sendMessage_broadcast_on_ok_error_on_fail :
    ∀ (st : ServerState) (sid : String) (u : User) (c ts : String),
      (∃ st2,
        handleSendMessage st sid ⟨some c, some u⟩ ts true =
          Except.ok (st2,
            [Emit.toAll (OutEvent.newMessage
              { id := st.nextMessageId, content := c, timestamp := ts, user := u })]) ∧
        st2.messages = st.messages ++
          [{ id := st.nextMessageId, student_id := u.studentId, user_name := u.name,
             content := c, timestamp := ts }] ∧
        ∀ x, observes x
            [Emit.toAll (OutEvent.newMessage
              { id := st.nextMessageId, content := c, timestamp := ts, user := u })] =
          [OutEvent.newMessage
            { id := st.nextMessageId, content := c, timestamp := ts, user := u }]) ∧
      (handleSendMessage st sid ⟨some c, some u⟩ ts false =
          Except.ok (st, [Emit.toSocket sid (OutEvent.errorEvent "消息发送失败")]) ∧
        ∀ x, observes x [Emit.toSocket sid (OutEvent.errorEvent "消息发送失败")] =
          if x = sid then [OutEvent.errorEvent "消息发送失败"] else []) := by
  intro st sid u c ts
  refine ⟨⟨_, rfl, rfl, fun x => rfl⟩, rfl, fun x => ?_⟩
  by_cases h : x = sid
  · simp [observes, deliveredTo, h]
  · simp [observes, deliveredTo, h, Ne.symm h]

/-- C5 (failing part): a `sendMessage` whose payload has no `user` field is
not validated; reading `user.studentId` raises a TypeError that escapes the
handler uncaught, instead of a ValidationError reported to the sender. -/
theorem sendMessage_missing_user_raises :
    handleSendMessage initState "s1" { content := some "hi", user := none }
      "2024-01-15T12:00:00.000Z" true = Except.error JsError.typeError := rfl

/-- C6 (failing part): with `lastNDays = 7` queried at
2024-01-15T12:00:00.000Z, a message stamped 2024-01-08T05:00:00.000Z — more
than 7 days old, as the first conjunct states — is nonetheless returned,
because the stored ISO text (with `T`) compares above the SQLite boundary
text `2024-01-08 12:00:00` (with a space) on their shared calendar date. -/
theorem getMessages_lastNDays_includes_older :
    dtToSecs { year := 2024, month := 1, day := 8, hour := 5, minute := 0, second := 0, ms := 0 }
        + 7 * 86400 <
      dtToSecs { year := 2024, month := 1, day := 15, hour := 12, minute := 0, second := 0, ms := 0 } ∧
    toIsoString { year := 2024, month := 1, day := 8, hour := 5, minute := 0, second := 0, ms := 0 } =
      "2024-01-08T05:00:00.000Z" ∧
    getMessagesResult { days := some 7, startDate := none, endDate := none }
        { year := 2024, month := 1, day := 15, hour := 12, minute := 0, second := 0, ms := 0 }
        { initState with messages :=
          [{ id := 1, student_id := "2021001", user_name := "张三", content := "hi",
             timestamp := "2024-01-08T05:00:00.000Z" }] } =
      [{ id := 1, content := "hi", timestamp := "2024-01-08T05:00:00.000Z",
         user := { studentId := "2021001", name := "张三" } }] :=
  ⟨by decide, rfl, rfl⟩

/-- C3: after two `join` events for the same user id from two different
connections, the presence list (`SELECT * FROM online_users ORDER BY
joined_at`) holds exactly one row for that user id, and it is the row of the
later join (its name and socket id). -/
theorem join_same_user_last_wins :
    ∀ (st : ServerState) (sid1 sid2 uid n1 n2 : String), sid1 ≠ sid2 →
      ((onlineList ((handleJoin ((handleJoin st sid1 ⟨uid, n1⟩).1) sid2 ⟨uid, n2⟩).1)).countP
          (fun r => r.student_id == uid) = 1 ∧
        ∀ r ∈ onlineList ((handleJoin ((handleJoin st sid1 ⟨uid, n1⟩).1) sid2 ⟨uid, n2⟩).1),
          r.student_id = uid → r.user_name = n2 ∧ r.socket_id = sid2) := by
  intro st sid1 sid2 uid n1 n2 _
  set st1 := (handleJoin st sid1 ⟨uid, n1⟩).1 with hst1
  set st2 := (handleJoin st1 sid2 ⟨uid, n2⟩).1 with hst2
  have htab : st2.online_users =
      st1.online_users.filter (fun r => !(r.student_id == uid)) ++
        [{ student_id := uid, user_name := n2, socket_id := sid2, joined_at := st1.clock }] := rfl
  constructor
  · rw [onlineList, (sortLe_perm joinedLe st2.online_users).countP_eq, htab,
      List.countP_append]
    have h0 : (st1.online_users.filter (fun r => !(r.student_id == uid))).countP
        (fun r => r.student_id == uid) = 0 := by
      rw [List.countP_eq_zero]
      intro a ha
      have := List.of_mem_filter ha
      simpa using this
    rw [h0]
    simp [List.countP_cons]
  · intro r hr _
    have hr2 : r ∈ st2.online_users :=
      (sortLe_perm joinedLe st2.online_users).mem_iff.mp hr
    rw [htab, List.mem_append] at hr2
    rcases hr2 with hr2 | hr2
    · have := List.of_mem_filter hr2
      simp only [Bool.not_eq_true', beq_eq_false_iff_ne, ne_eq] at this
      exact absurd (by assumption) this
    · rw [List.mem_singleton] at hr2
      subst hr2
      exact ⟨rfl, rfl⟩

/-- Helper for C8: a socket that never issued a `join` has no
`connectedUsers` entry after any presence trace. -/
theorem mapGet_none_of_no_join :
    ∀ (t : List Event) (st : ServerState) (sid : String),
      mapGet sid st.connectedUsers = none → (∀ u, Event.join sid u ∉ t) →
      mapGet sid (runEvents st t).connectedUsers = none := by
  intro t
  induction t with
  | nil => intro st sid h _; exact h
  | cons e rest ih =>
    intro st sid h hnj
    cases e with
    | join sid2 u =>
      have hne : sid ≠ sid2 := by
        intro heq
        exact hnj u (by rw [heq]; exact List.mem_cons_self _ _)
      have hstep : mapGet sid (stepEvent st (.join sid2 u)).connectedUsers = none := by
        show mapGet sid (mapSet sid2 u st.connectedUsers) = none
        rw [mapGet_set_ne hne]
        exact h
      exact ih _ sid hstep (fun u2 hmem => hnj u2 (List.mem_cons_of_mem _ hmem))
    | disconnect sid2 =>
      have hstep : mapGet sid (stepEvent st (.disconnect sid2)).connectedUsers = none := by
        show mapGet sid (handleDisconnect st sid2).1.connectedUsers = none
        rw [handleDisconnect]
        cases hg : mapGet sid2 st.connectedUsers with
        | none => exact h
        | some u => exact mapGet_delete_of_none _ h
      exact ih _ sid hstep (fun u2 hmem => hnj u2 (List.mem_cons_of_mem _ hmem))

/-- C8: a disconnect from a connection that never joined emits nothing — no
`userLeft`, no `userListUpdate` — and leaves the state (hence the presence
list) unchanged. -/
theorem disconnect_without_join_silent :
    ∀ (t : List Event) (sid : String), (∀ u, Event.join sid u ∉ t) →
      handleDisconnect (runEvents initState t) sid = (runEvents initState t, []) := by
  intro t sid hnj
  have h : mapGet sid (runEvents initState t).connectedUsers = none :=
    mapGet_none_of_no_join t initState sid rfl hnj
  rw [handleDisconnect, h]

/-- Witness for C8 at a concrete trace: `c1` joins, `c2` disconnects. -/
theorem disconnect_without_join_silent_witness :
    (∀ u, Event.join "c2" u ∉ [Event.join "c1" { studentId := "2021001", name := "张三" }]) ∧
    handleDisconnect
        (runEvents initState [Event.join "c1" { studentId := "2021001", name := "张三" }]) "c2" =
      (runEvents initState [Event.join "c1" { studentId := "2021001", name := "张三" }], []) := by
  have hnj : ∀ u, Event.join "c2" u ∉
      [Event.join "c1" { studentId := "2021001", name := "张三" }] := by
    intro u h
    rw [List.mem_singleton] at h
    injection h with h1 h2
    exact absurd h1 (by decide)
  exact ⟨hnj, disconnect_without_join_silent _ "c2" hnj⟩

/-- C10: after user `uid` joins on `sid1` and then on `sid2` (superseding the
first row), a disconnect of `sid1` still broadcasts `userLeft` for `uid` to
the remaining connections, and `uid` still appears in the `userListUpdate`
that follows (the `DELETE ... WHERE socket_id = sid1` misses the row, which
now carries `sid2`). -/
theorem stale_disconnect_still_emits_userLeft :
    ∀ (st : ServerState) (sid1 sid2 uid n1 n2 : String), sid1 ≠ sid2 →
      (handleDisconnect ((handleJoin ((handleJoin st sid1 ⟨uid, n1⟩).1) sid2 ⟨uid, n2⟩).1) sid1).2 =
        [Emit.broadcastExcept sid1 (OutEvent.userLeft { studentId := uid, name := n1 }),
         Emit.toAll (OutEvent.userListUpdate (userEntries
           (handleDisconnect ((handleJoin ((handleJoin st sid1 ⟨uid, n1⟩).1) sid2 ⟨uid, n2⟩).1) sid1).1))] ∧
      ∃ e ∈ userEntries
          (handleDisconnect ((handleJoin ((handleJoin st sid1 ⟨uid, n1⟩).1) sid2 ⟨uid, n2⟩).1) sid1).1,
        e.studentId = uid := by
  intro st sid1 sid2 uid n1 n2 hne
  set st1 := (handleJoin st sid1 ⟨uid, n1⟩).1 with hst1
  set st2 := (handleJoin st1 sid2 ⟨uid, n2⟩).1 with hst2
  have hget : mapGet sid1 st2.connectedUsers = some ⟨uid, n1⟩ := by
    show mapGet sid1 (mapSet sid2 ⟨uid, n2⟩ (mapSet sid1 ⟨uid, n1⟩ st.connectedUsers)) = _
    rw [mapGet_set_ne hne, mapGet_set_self]
  constructor
  · simp only [handleDisconnect, hget]
  · simp only [handleDisconnect, hget]
    refine ⟨{ studentId := uid, name := n2, online := true }, ?_, rfl⟩
    rw [userEntries, onlineList]
    refine List.mem_map.mpr
      ⟨{ student_id := uid, user_name := n2, socket_id := sid2, joined_at := st1.clock }, ?_, rfl⟩
    refine (sortLe_perm joinedLe _).mem_iff.mpr ?_
    refine List.mem_filter.mpr ⟨?_, ?_⟩
    · have htab : st2.online_users =
          st1.online_users.filter (fun r => !(r.student_id == uid)) ++
            [{ student_id := uid, user_name := n2, socket_id := sid2,
               joined_at := st1.clock }] := rfl
      rw [htab]
      exact List.mem_append_right _ (List.mem_singleton.mpr rfl)
    · simp only [Bool.not_eq_true', beq_eq_false_iff_ne, ne_eq]
      exact fun h => hne (h.symm)

/-- Witness for C3: two joins for student 2021001 from sockets c1 and c2. -/
theorem join_same_user_last_wins_witness :
    ("c1" : String) ≠ "c2" ∧
    ((onlineList ((handleJoin ((handleJoin initState "c1" ⟨"2021001", "张三"⟩).1) "c2"
          ⟨"2021001", "张三改"⟩).1)).countP (fun r => r.student_id == "2021001") = 1 ∧
      ∀ r ∈ onlineList ((handleJoin ((handleJoin initState "c1" ⟨"2021001", "张三"⟩).1) "c2"
          ⟨"2021001", "张三改"⟩).1),
        r.student_id = "2021001" → r.user_name = "张三改" ∧ r.socket_id = "c2") :=
  ⟨by decide, join_same_user_last_wins initState "c1" "c2" "2021001" "张三" "张三改" (by decide)⟩

/-- Witness for C10 at sockets c1, c2 and student 2021001. -/
theorem stale_disconnect_still_emits_userLeft_witness :
    ("c1" : String) ≠ "c2" ∧
    ((handleDisconnect ((handleJoin ((handleJoin initState "c1" ⟨"2021001", "张三"⟩).1) "c2"
          ⟨"2021001", "张三"⟩).1) "c1").2 =
        [Emit.broadcastExcept "c1" (OutEvent.userLeft { studentId := "2021001", name := "张三" }),
         Emit.toAll (OutEvent.userListUpdate (userEntries
           (handleDisconnect ((handleJoin ((handleJoin initState "c1" ⟨"2021001", "张三"⟩).1) "c2"
             ⟨"2021001", "张三"⟩).1) "c1").1))] ∧
      ∃ e ∈ userEntries (handleDisconnect ((handleJoin ((handleJoin initState "c1"
          ⟨"2021001", "张三"⟩).1) "c2" ⟨"2021001", "张三"⟩).1) "c1").1,
        e.studentId = "2021001") :=
  ⟨by decide,
    stale_disconnect_still_emits_userLeft initState "c1" "c2" "2021001" "张三" "张三" (by decide)⟩

/-- A two-row store fixture with equal timestamps (for concrete witnesses). -/
def twoMsgStore : ServerState :=
  { initState with messages :=
    [{ id := 1, student_id := "2021001", user_name := "张三", content := "a",
       timestamp := "2024-01-08T05:00:00.000Z" },
     { id := 2, student_id := "2021002", user_name := "李四", content := "b",
       timestamp := "2024-01-08T05:00:00.000Z" }] }

/-- A one-row store fixture (for concrete witnesses). -/
def oneMsgStore : ServerState :=
  { initState with messages :=
    [{ id := 1, student_id := "2021001", user_name := "张三", content := "hi",
       timestamp := "2024-01-08T05:00:00.000Z" }] }

/-- A fixed query instant used by concrete witnesses. -/
def wNow : DateTime :=
  { year := 2024, month := 1, day := 15, hour := 12, minute := 0, second := 0, ms := 0 }

/-- Shared pipeline lemma: any filtered, timestamp-sorted, 1000-capped,
formatted query result has at most 1000 rows and is ascending by stored
timestamp with ties broken by ascending id, provided the stored rows carry
strictly increasing ids. -/
theorem result_capped_sorted (p : MessageRow → Bool) {msgs : List MessageRow}
    (h : msgs.Pairwise (fun a b => a.id < b.id)) :
    (((sortLe rowTsLe (msgs.filter p)).take 1000).map formatRow).length ≤ 1000 ∧
    (((sortLe rowTsLe (msgs.filter p)).take 1000).map formatRow).Pairwise outLex := by
  constructor
  · rw [List.length_map, List.length_take]
    exact Nat.min_le_left _ _
  · have h1 : (msgs.filter p).Pairwise (fun a b => a.id < b.id) :=
      List.Pairwise.sublist (List.filter_sublist msgs) h
    have h2 : (sortLe rowTsLe (msgs.filter p)).Pairwise rowLex := pairwise_sortLe h1
    have h3 : ((sortLe rowTsLe (msgs.filter p)).take 1000).Pairwise rowLex :=
      List.Pairwise.sublist (List.take_sublist 1000 _) h2
    exact List.pairwise_map.mpr (h3.imp (fun hab => hab))

/-- C2: both history-query paths — the `getMessages` socket event and
`GET /api/messages` — return at most 1000 messages, ascending by timestamp
with ties on equal timestamps broken by ascending id, for every filter.
The hypothesis is the store invariant: rows of `messages` carry strictly
increasing (AUTOINCREMENT-assigned) ids. -/
theorem query_capped_and_sorted :
    ∀ (dr : DateRange) (q : HttpQuery) (now : DateTime) (st : ServerState),
      st.messages.Pairwise (fun a b => a.id < b.id) →
      ((getMessagesResult dr now st).length ≤ 1000 ∧
        (getMessagesResult dr now st).Pairwise outLex ∧
        (apiMessagesResult q now st).length ≤ 1000 ∧
        (apiMessagesResult q now st).Pairwise outLex) := by
  intro dr q now st h
  obtain ⟨h1, h2⟩ := result_capped_sorted (getMessagesFilter dr now) h
  obtain ⟨h3, h4⟩ := result_capped_sorted (apiMessagesFilter q now) h
  exact ⟨h1, h2, h3, h4⟩

/-- Witness for C2: a two-message store with equal timestamps, an
unfiltered socket query and a days-filtered HTTP query. -/
theorem query_capped_and_sorted_witness :
    twoMsgStore.messages.Pairwise (fun a b => a.id < b.id) ∧
    ((getMessagesResult { days := none, startDate := none, endDate := none }
        wNow twoMsgStore).length ≤ 1000 ∧
      (getMessagesResult { days := none, startDate := none, endDate := none }
        wNow twoMsgStore).Pairwise outLex ∧
      (apiMessagesResult { days := some "7", startDate := none, endDate := none }
        wNow twoMsgStore).length ≤ 1000 ∧
      (apiMessagesResult { days := some "7", startDate := none, endDate := none }
        wNow twoMsgStore).Pairwise outLex) :=
  ⟨by decide,
    query_capped_and_sorted { days := none, startDate := none, endDate := none }
      { days := some "7", startDate := none, endDate := none } wNow twoMsgStore (by decide)⟩

/-- Helper for C7: the socket filter accepts everything when `days` is
absent or 0 and `startDate` is absent. -/
theorem getMessagesFilter_trivial {d : Option Int} (hd : d = none ∨ d = some 0)
    (ed : Option String) (now : DateTime) (r : MessageRow) :
    getMessagesFilter { days := d, startDate := none, endDate := ed } now r = true := by
  rcases hd with rfl | rfl <;> simp [getMessagesFilter, dateRangeCond, optTruthy]

/-- Helper for C7: the HTTP filter accepts everything when `days` is absent
or the string "0" and `startDate` is absent. -/
theorem apiMessagesFilter_trivial {d : Option String} (hd : d = none ∨ d = some "0")
    (ed : Option String) (now : DateTime) (r : MessageRow) :
    apiMessagesFilter { days := d, startDate := none, endDate := ed } now r = true := by
  rcases hd with rfl | rfl <;> simp [apiMessagesFilter, dateRangeCond, optTruthy]

/-- C7: when `days` is 0 or absent and no `startDate` is given, both query
paths run unfiltered: the result has `min (number of stored messages) 1000`
rows, and whenever the store holds at most 1000 messages it is exactly the
stored messages (as a permutation of their formatted versions). -/
theorem query_no_filter_returns_all :
    ∀ (d : Option Int) (dh ed eh : Option String) (now : DateTime) (st : ServerState),
      (d = none ∨ d = some 0) → (dh = none ∨ dh = some "0") →
      ((getMessagesResult { days := d, startDate := none, endDate := ed } now st).length =
          min st.messages.length 1000 ∧
        (apiMessagesResult { days := dh, startDate := none, endDate := eh } now st).length =
          min st.messages.length 1000 ∧
        (st.messages.length ≤ 1000 →
          List.Perm (getMessagesResult { days := d, startDate := none, endDate := ed } now st)
            (st.messages.map formatRow) ∧
          List.Perm (apiMessagesResult { days := dh, startDate := none, endDate := eh } now st)
            (st.messages.map formatRow))) := by
  intro d dh ed eh now st hd hdh
  have hf1 : st.messages.filter
      (getMessagesFilter { days := d, startDate := none, endDate := ed } now) = st.messages :=
    List.filter_eq_self.mpr (fun r _ => getMessagesFilter_trivial hd ed now r)
  have hf2 : st.messages.filter
      (apiMessagesFilter { days := dh, startDate := none, endDate := eh } now) = st.messages :=
    List.filter_eq_self.mpr (fun r _ => apiMessagesFilter_trivial hdh eh now r)
  have hlen : ∀ msgs : List MessageRow,
      (((sortLe rowTsLe msgs).take 1000).map formatRow).length = min msgs.length 1000 := by
    intro msgs
    rw [List.length_map, List.length_take, length_sortLe, Nat.min_comm]
  have hperm : st.messages.length ≤ 1000 →
      List.Perm (((sortLe rowTsLe st.messages).take 1000).map formatRow)
        (st.messages.map formatRow) := by
    intro hle
    rw [List.take_of_length_le (by rw [length_sortLe]; exact hle)]
    exact (sortLe_perm rowTsLe st.messages).map formatRow
  refine ⟨?_, ?_, fun hle => ⟨?_, ?_⟩⟩
  · rw [getMessagesResult, hf1]; exact hlen st.messages
  · rw [apiMessagesResult, hf2]; exact hlen st.messages
  · rw [getMessagesResult, hf1]; exact hperm hle
  · rw [apiMessagesResult, hf2]; exact hperm hle

/-- Witness for C7: absent socket `days`, HTTP `days = "0"`, one stored
message. -/
theorem query_no_filter_returns_all_witness :
    ((none : Option Int) = none ∨ (none : Option Int) = some 0) ∧
    ((some "0" : Option String) = none ∨ (some "0" : Option String) = some "0") ∧
    ((getMessagesResult { days := none, startDate := none, endDate := none }
        wNow oneMsgStore).length = min oneMsgStore.messages.length 1000 ∧
      (apiMessagesResult { days := some "0", startDate := none, endDate := none }
        wNow oneMsgStore).length = min oneMsgStore.messages.length 1000 ∧
      (oneMsgStore.messages.length ≤ 1000 →
        List.Perm (getMessagesResult { days := none, startDate := none, endDate := none }
          wNow oneMsgStore) (oneMsgStore.messages.map formatRow) ∧
        List.Perm (apiMessagesResult { days := some "0", startDate := none, endDate := none }
          wNow oneMsgStore) (oneMsgStore.messages.map formatRow))) :=
  ⟨Or.inl rfl, Or.inr rfl,
    query_no_filter_returns_all none (some "0") none none wNow oneMsgStore
      (Or.inl rfl) (Or.inr rfl)⟩

/-! ### C9: parameterization of the history queries -/

/-- The HTTP guard for taking the days branch: days present, non-empty and
not the string "0". -/
def httpDaysTruthy : Option String → Bool
  | none => false
  | some d => !(d == "") && !(d == "0")

/-- Formalization of the claim, following the spec words: "the SQL query ...
is built only from fixed text and bound parameters: no integer or date value
taken from the input is ever interpolated directly into the query string".
If that holds, the query text can depend only on which filter branch the
input selects (present/truthy shape), never on the values themselves. -/
def queryTextValueIndependent : Prop :=
  (∀ dr1 dr2 : DateRange,
      intTruthy dr1.days = intTruthy dr2.days →
      optTruthy dr1.startDate = optTruthy dr2.startDate →
      optTruthy dr1.endDate = optTruthy dr2.endDate →
      (getMessagesQuery dr1).1 = (getMessagesQuery dr2).1) ∧
  (∀ q1 q2 : HttpQuery,
      httpDaysTruthy q1.days = httpDaysTruthy q2.days →
      optTruthy q1.startDate = optTruthy q2.startDate →
      optTruthy q1.endDate = optTruthy q2.endDate →
      (apiMessagesQuery q1).1 = (apiMessagesQuery q2).1)

/-- C9 counterexample: `days = 5` and `days = 6` select the same branch yet
produce different query texts — the days value is interpolated into the SQL
string, so the claimed property fails. -/
theorem query_text_depends_on_days_value :
    intTruthy (some (5 : Int)) = intTruthy (some (6 : Int)) ∧
    (getMessagesQuery { days := some 5, startDate := none, endDate := none }).1 ≠
      (getMessagesQuery { days := some 6, startDate := none, endDate := none }).1 ∧
    ¬ queryTextValueIndependent := by
  refine ⟨rfl, by decide, fun h => ?_⟩
  exact absurd
    (h.1 { days := some 5, startDate := none, endDate := none }
      { days := some 6, startDate := none, endDate := none } rfl rfl rfl)
    (by decide)

/-- C9 amended: the date values do travel as bound parameters with fixed
query text, but a truthy `days` value is spliced directly into the query
text (raw on the socket path, through `parseInt` on the HTTP path) with an
empty parameter list. -/
theorem query_days_interpolated_dates_bound :
    ∀ (d : Int) (ds : String) (sd ed : Option String) (s e : String),
      d ≠ 0 → ds ≠ "" → ds ≠ "0" → s ≠ "" → e ≠ "" →
      (getMessagesQuery { days := some d, startDate := sd, endDate := ed } =
        ("SELECT * FROM messages" ++
          (" WHERE timestamp >= datetime(\x27now\x27, \x27-" ++ toString d ++ " days\x27)") ++
          " ORDER BY timestamp ASC LIMIT 1000", []) ∧
       apiMessagesQuery { days := some ds, startDate := sd, endDate := ed } =
        ("SELECT * FROM messages" ++
          (" WHERE timestamp >= datetime(\x27now\x27, \x27-" ++
            jsNumberToString (jsParseInt ds) ++ " days\x27)") ++
          " ORDER BY timestamp ASC LIMIT 1000", []) ∧
       getMessagesQuery { days := none, startDate := some s, endDate := some e } =
        ("SELECT * FROM messages WHERE date(timestamp) BETWEEN ? AND ? ORDER BY timestamp ASC LIMIT 1000",
          [s, e]) ∧
       apiMessagesQuery { days := none, startDate := some s, endDate := some e } =
        ("SELECT * FROM messages WHERE date(timestamp) BETWEEN ? AND ? ORDER BY timestamp ASC LIMIT 1000",
          [s, e]) ∧
       getMessagesQuery { days := none, startDate := some s, endDate := none } =
        ("SELECT * FROM messages WHERE date(timestamp) >= ? ORDER BY timestamp ASC LIMIT 1000",
          [s]) ∧
       apiMessagesQuery { days := none, startDate := some s, endDate := none } =
        ("SELECT * FROM messages WHERE date(timestamp) >= ? ORDER BY timestamp ASC LIMIT 1000",
          [s])) := by
  intro d ds sd ed s e hd hds hds0 hs he
  refine ⟨?_, ?_, ?_, ?_, ?_, ?_⟩
  · simp [getMessagesQuery, hd]
  · simp [apiMessagesQuery, hds, hds0]
  · simp [getMessagesQuery, dateRangeClause, optTruthy, optStr, hs, he]
  · simp [apiMessagesQuery, dateRangeClause, optTruthy, optStr, hs, he]
  · simp [getMessagesQuery, dateRangeClause, optTruthy, optStr, hs]
  · simp [apiMessagesQuery, dateRangeClause, optTruthy, optStr, hs]

/-- Witness for the amended C9 at `days = 5` / `"5"` and the January 2024
date range. -/
theorem query_days_interpolated_dates_bound_witness :
    (5 : Int) ≠ 0 ∧ ("5" : String) ≠ "" ∧ ("5" : String) ≠ "0" ∧
    ("2024-01-01" : String) ≠ "" ∧ ("2024-01-31" : String) ≠ "" ∧
    (getMessagesQuery { days := some 5, startDate := none, endDate := none } =
      ("SELECT * FROM messages" ++
        (" WHERE timestamp >= datetime(\x27now\x27, \x27-" ++ toString (5 : Int) ++ " days\x27)") ++
        " ORDER BY timestamp ASC LIMIT 1000", []) ∧
     apiMessagesQuery { days := some "5", startDate := none, endDate := none } =
      ("SELECT * FROM messages" ++
        (" WHERE timestamp >= datetime(\x27now\x27, \x27-" ++
          jsNumberToString (jsParseInt "5") ++ " days\x27)") ++
        " ORDER BY timestamp ASC LIMIT 1000", []) ∧
     getMessagesQuery { days := none, startDate := some "2024-01-01", endDate := some "2024-01-31" } =
      ("SELECT * FROM messages WHERE date(timestamp) BETWEEN ? AND ? ORDER BY timestamp ASC LIMIT 1000",
        ["2024-01-01", "2024-01-31"]) ∧
     apiMessagesQuery { days := none, startDate := some "2024-01-01", endDate := some "2024-01-31" } =
      ("SELECT * FROM messages WHERE date(timestamp) BETWEEN ? AND ? ORDER BY timestamp ASC LIMIT 1000",
        ["2024-01-01", "2024-01-31"]) ∧
     getMessagesQuery { days := none, startDate := some "2024-01-01", endDate := none } =
      ("SELECT * FROM messages WHERE date(timestamp) >= ? ORDER BY timestamp ASC LIMIT 1000",
        ["2024-01-01"]) ∧
     apiMessagesQuery { days := none, startDate := some "2024-01-01", endDate := none } =
      ("SELECT * FROM messages WHERE date(timestamp) >= ? ORDER BY timestamp ASC LIMIT 1000",
        ["2024-01-01"])) :=
  ⟨by decide, by decide, by decide, by decide, by decide,
    query_days_interpolated_dates_bound 5 "5" none none "2024-01-01" "2024-01-31"
      (by decide) (by decide) (by decide) (by decide) (by decide)⟩

/-! ### C4: join/leave counting -/

/-- Two joins for the same user id from different connections. -/
def doubleJoinTrace : List Event :=
  [Event.join "c1" { studentId := "2021001", name := "张三" },
   Event.join "c2" { studentId := "2021001", name := "张三" }]

/-- C4 counterexample: a trace of N = 2 joins and M = 0 leaves after which
the presence list has 1 entry, not N − M = 2 — the second join replaced the
first row (`INSERT OR REPLACE` keyed by `student_id`). -/
theorem join_join_breaks_count_law :
    countJoins doubleJoinTrace = 2 ∧ countLeaves doubleJoinTrace = 0 ∧
    (onlineList (runEvents initState doubleJoinTrace)).length ≠
      countJoins doubleJoinTrace - countLeaves doubleJoinTrace := by
  refine ⟨rfl, rfl, ?_⟩
  decide

theorem length_filter_not {α : Type} (p : α → Bool) :
    ∀ l : List α, (l.filter (fun a => !(p a))).length + l.countP p = l.length := by
  intro l
  induction l with
  | nil => rfl
  | cons a t ih =>
    by_cases h : p a = true
    · rw [List.countP_cons_of_pos _ _ h]
      have h2 : (!(p a)) = false := by rw [h]; rfl
      rw [List.filter_cons_of_neg (by rw [h2]; exact Bool.false_ne_true)]
      simp only [List.length_cons]
      omega
    · have h2 : p a = false := Bool.eq_false_iff.mpr h
      rw [List.countP_cons_of_neg _ _ (by rw [h2]; exact Bool.false_ne_true)]
      rw [List.filter_cons_of_pos (by rw [h2]; rfl)]
      simp only [List.length_cons]
      omega

theorem countP_le_one_of_nodup_map {α β : Type} [BEq β] [LawfulBEq β] (f : α → β)
    {l : List α} (h : (l.map f).Nodup) (b : β) :
    l.countP (fun a => f a == b) ≤ 1 := by
  induction l with
  | nil => simp
  | cons a t ih =>
    rw [List.map_cons, List.nodup_cons] at h
    obtain ⟨hnot, ht⟩ := h
    by_cases hp : (f a == b) = true
    · have hz : t.countP (fun a2 => f a2 == b) = 0 := by
        rw [List.countP_eq_zero]
        intro a2 ha2 hpa2
        exact hnot (List.mem_map.mpr ⟨a2, ha2, by
          have h1 : f a = b := eq_of_beq hp
          have h2 : f a2 = b := eq_of_beq hpa2
          rw [h2, h1]⟩)
      rw [List.countP_cons, hz]
      simp [hp]
    · rw [List.countP_cons]
      simp only [hp, if_false]
      simpa using ih ht

/-- The socket ids of the current presence rows. -/
def sidsOf (st : ServerState) : List String := st.online_users.map OnlineRow.socket_id

/-- Invariant carried through a presence trace: the socket of every presence row
is a used handle, socket ids and user ids of the rows are duplicate-free,
and every presence row still has its `connectedUsers` entry. -/
def TraceInv (st : ServerState) (used : List String) : Prop :=
  (∀ r ∈ st.online_users, r.socket_id ∈ used) ∧
  (st.online_users.map OnlineRow.socket_id).Nodup ∧
  (st.online_users.map OnlineRow.student_id).Nodup ∧
  (∀ r ∈ st.online_users, mapGet r.socket_id st.connectedUsers ≠ none)

theorem okTrace_run :
    ∀ (t : List Event) (st : ServerState) (used : List String),
      TraceInv st used → okTrace st used t = true →
      ((runEvents st t).online_users.length + countLeaves t =
          st.online_users.length + countJoins t ∧
        (∀ r ∈ (runEvents st t).online_users, Event.disconnect r.socket_id ∉ t) ∧
        (∀ s ∈ used, s ∉ sidsOf st → s ∉ sidsOf (runEvents st t))) := by
  intro t
  induction t with
  | nil =>
    intro st used hinv _
    refine ⟨by simp [runEvents, countJoins, countLeaves], ?_, ?_⟩
    · intro r _ hmem
      exact absurd hmem (List.not_mem_nil _)
    · intro s _ hnot
      exact hnot
  | cons e rest ih =>
    intro st used hinv hok
    obtain ⟨hused, hsids, huids, hconn⟩ := hinv
    cases e with
    | join sid u =>
      rw [okTrace, Bool.and_eq_true, Bool.and_eq_true] at hok
      obtain ⟨⟨hfresh, hall⟩, hrest⟩ := hok
      have hnotused : sid ∉ used := by
        intro hmem
        rw [Bool.not_eq_true', List.contains_eq_any_beq] at hfresh
        have : used.any (sid == ·) = true :=
          List.any_eq_true.mpr ⟨sid, hmem, beq_self_eq_true sid⟩
        rw [this] at hfresh
        exact absurd hfresh (by decide)
      have hallp : ∀ r ∈ st.online_users, ¬(r.student_id = u.studentId) := by
        intro r hr heq
        have := List.all_eq_true.mp hall r hr
        rw [Bool.not_eq_true', beq_eq_false_iff_ne] at this
        exact this heq
      have htab : (stepEvent st (.join sid u)).online_users =
          st.online_users ++
            [{ student_id := u.studentId, user_name := u.name, socket_id := sid,
               joined_at := st.clock }] := by
        show st.online_users.filter (fun r => !(r.student_id == u.studentId)) ++ _ = _
        rw [List.filter_eq_self.mpr (fun r hr => by
          rw [Bool.not_eq_true', beq_eq_false_iff_ne]
          exact fun heq => hallp r hr heq)]
      have hconn2 : (stepEvent st (.join sid u)).connectedUsers =
          mapSet sid u st.connectedUsers := rfl
      have hsidfresh : sid ∉ st.online_users.map OnlineRow.socket_id := by
        intro hmem
        obtain ⟨r, hr, hrs⟩ := List.mem_map.mp hmem
        exact hnotused (hrs ▸ hused r hr)
      have hinv2 : TraceInv (stepEvent st (.join sid u)) (sid :: used) := by
        refine ⟨?_, ?_, ?_, ?_⟩
        · intro r hr
          rw [htab, List.mem_append] at hr
          rcases hr with hr | hr
          · exact List.mem_cons_of_mem _ (hused r hr)
          · rw [List.mem_singleton] at hr
            subst hr
            exact List.mem_cons_self _ _
        · rw [htab, List.map_append]
          rw [List.nodup_append]
          refine ⟨hsids, List.nodup_singleton _, ?_⟩
          intro s hs hs2
          rw [List.map_singleton, List.mem_singleton] at hs2
          subst hs2
          exact hsidfresh hs
        · rw [htab, List.map_append]
          rw [List.nodup_append]
          refine ⟨huids, List.nodup_singleton _, ?_⟩
          intro s hs hs2
          rw [List.map_singleton, List.mem_singleton] at hs2
          subst hs2
          obtain ⟨r, hr, hrs⟩ := List.mem_map.mp hs
          exact hallp r hr hrs
        · intro r hr
          rw [htab, List.mem_append] at hr
          rw [hconn2]
          rcases hr with hr | hr
          · have hne : r.socket_id ≠ sid := by
              intro heq
              exact hsidfresh (List.mem_map.mpr ⟨r, hr, heq⟩)
            rw [mapGet_set_ne hne]
            exact hconn r hr
          · rw [List.mem_singleton] at hr
            subst hr
            rw [mapGet_set_self]
            exact Option.some_ne_none u
      obtain ⟨ih1, ih2, ih3⟩ := ih (stepEvent st (.join sid u)) (sid :: used) hinv2 hrest
      have hrun : runEvents st (Event.join sid u :: rest) =
          runEvents (stepEvent st (.join sid u)) rest := rfl
      refine ⟨?_, ?_, ?_⟩
      · rw [hrun, countJoins, List.countP_cons_of_pos _ _ rfl,
          countLeaves, List.countP_cons_of_neg _ _ (by exact Bool.false_ne_true)]
        have hlen2 : (stepEvent st (.join sid u)).online_users.length =
            st.online_users.length + 1 := by
          rw [htab, List.length_append, List.length_singleton]
        rw [countJoins, countLeaves] at ih1
        omega
      · intro r hr hmem
        rw [List.mem_cons] at hmem
        rcases hmem with hmem | hmem
        · exact Event.noConfusion hmem
        · exact ih2 r (by rw [hrun] at hr; exact hr) hmem
      · intro s hs hnot
        rw [hrun]
        refine ih3 s (List.mem_cons_of_mem _ hs) ?_
        rw [sidsOf, htab, List.map_append]
        rw [List.mem_append]
        rintro (hmem | hmem)
        · exact hnot hmem
        · rw [List.map_singleton, List.mem_singleton] at hmem
          subst hmem
          exact hnotused hs
    | disconnect sid =>
      rw [okTrace, Bool.and_eq_true] at hok
      obtain ⟨hany, hrest⟩ := hok
      obtain ⟨r0, hr0, hr0s⟩ := List.any_eq_true.mp hany
      have hr0sid : r0.socket_id = sid := eq_of_beq hr0s
      have hg : mapGet sid st.connectedUsers ≠ none := hr0sid ▸ hconn r0 hr0
      obtain ⟨u0, hu0⟩ := Option.ne_none_iff_exists'.mp hg
      have htab : (stepEvent st (.disconnect sid)).online_users =
          st.online_users.filter (fun r => !(r.socket_id == sid)) := by
        show (handleDisconnect st sid).1.online_users = _
        rw [handleDisconnect, hu0]
      have hconn2 : (stepEvent st (.disconnect sid)).connectedUsers =
          mapDelete sid st.connectedUsers := by
        show (handleDisconnect st sid).1.connectedUsers = _
        rw [handleDisconnect, hu0]
      have hcount1 : st.online_users.countP (fun r => r.socket_id == sid) = 1 := by
        have hpos : 0 < st.online_users.countP (fun r => r.socket_id == sid) :=
          List.countP_pos_iff.mpr ⟨r0, hr0, hr0s⟩
        have hle : st.online_users.countP (fun r => r.socket_id == sid) ≤ 1 :=
          countP_le_one_of_nodup_map OnlineRow.socket_id hsids sid
        omega
      have hlen2 : (stepEvent st (.disconnect sid)).online_users.length + 1 =
          st.online_users.length := by
        rw [htab]
        have := length_filter_not (fun r : OnlineRow => r.socket_id == sid) st.online_users
        omega
      have hnotafter : sid ∉ sidsOf (stepEvent st (.disconnect sid)) := by
        intro hmem
        obtain ⟨r, hr, hrs⟩ := List.mem_map.mp hmem
        rw [htab] at hr
        have := List.of_mem_filter hr
        rw [Bool.not_eq_true', beq_eq_false_iff_ne] at this
        exact this hrs
      have hinv2 : TraceInv (stepEvent st (.disconnect sid)) used := by
        refine ⟨?_, ?_, ?_, ?_⟩
        · intro r hr
          rw [htab] at hr
          exact hused r (List.mem_of_mem_filter hr)
        · rw [htab]
          exact List.Nodup.sublist ((List.filter_sublist _).map _) hsids
        · rw [htab]
          exact List.Nodup.sublist ((List.filter_sublist _).map _) huids
        · intro r hr
          rw [htab] at hr
          have hne : r.socket_id ≠ sid := by
            have := List.of_mem_filter hr
            rw [Bool.not_eq_true', beq_eq_false_iff_ne] at this
            exact this
          rw [hconn2, mapGet_delete_ne hne]
          exact hconn r (List.mem_of_mem_filter hr)
      obtain ⟨ih1, ih2, ih3⟩ := ih (stepEvent st (.disconnect sid)) used hinv2 hrest
      have hrun : runEvents st (Event.disconnect sid :: rest) =
          runEvents (stepEvent st (.disconnect sid)) rest := rfl
      refine ⟨?_, ?_, ?_⟩
      · rw [hrun, countJoins, List.countP_cons_of_neg _ _ (by exact Bool.false_ne_true),
          countLeaves, List.countP_cons_of_pos _ _ rfl]
        rw [countJoins, countLeaves] at ih1
        omega
      · intro r hr hmem
        rw [hrun] at hr
        rw [List.mem_cons] at hmem
        rcases hmem with hmem | hmem
        · have hrs : r.socket_id = sid := by
            injection hmem
          have hsidused : sid ∈ used := hr0sid ▸ hused r0 hr0
          have : sid ∉ sidsOf (runEvents (stepEvent st (.disconnect sid)) rest) :=
            ih3 sid hsidused hnotafter
          exact this (List.mem_map.mpr ⟨r, hr, hrs⟩)
        · exact ih2 r hr hmem
      · intro s hs hnot
        rw [hrun]
        refine ih3 s hs ?_
        intro hmem
        obtain ⟨r, hr, hrs⟩ := List.mem_map.mp hmem
        rw [htab] at hr
        exact hnot (List.mem_map.mpr ⟨r, List.mem_of_mem_filter hr, hrs⟩)

/-- C4 amended: over any interleaving of joins and disconnects that is
well-formed — each join from a fresh connection handle and for a user id not
currently present, each disconnect from a currently present connection — the
presence list ends with exactly N − M entries (N joins, M ≤ N disconnects),
and every remaining entry belongs to a connection that never disconnected. -/
theorem presence_count_law :
    ∀ t : List Event, okTrace initState [] t = true →
      ((onlineList (runEvents initState t)).length = countJoins t - countLeaves t ∧
        countLeaves t ≤ countJoins t ∧
        ∀ r ∈ onlineList (runEvents initState t), Event.disconnect r.socket_id ∉ t) := by
  intro t hok
  have hinv : TraceInv initState [] := by
    refine ⟨?_, ?_, ?_, ?_⟩ <;> simp [initState, sidsOf]
  obtain ⟨h1, h2, h3⟩ := okTrace_run t initState [] hinv hok
  rw [show initState.online_users.length = 0 from rfl] at h1
  refine ⟨?_, by omega, ?_⟩
  · rw [onlineList, length_sortLe]
    omega
  · intro r hr
    exact h2 r ((sortLe_perm joinedLe _).mem_iff.mp hr)

/-- A well-formed trace for the C4 witness: two joins, one disconnect. -/
def wTrace : List Event :=
  [Event.join "c1" { studentId := "2021001", name := "张三" },
   Event.join "c2" { studentId := "2021002", name := "李四" },
   Event.disconnect "c1"]

/-- Witness for the amended C4 at a concrete well-formed trace. -/
theorem presence_count_law_witness :
    okTrace initState [] wTrace = true ∧
    ((onlineList (runEvents initState wTrace)).length = countJoins wTrace - countLeaves wTrace ∧
      countLeaves wTrace ≤ countJoins wTrace ∧
      ∀ r ∈ onlineList (runEvents initState wTrace), Event.disconnect r.socket_id ∉ wTrace) :=
  ⟨by decide, presence_count_law wTrace (by decide)⟩

end GroupChat
